import Mathlib

/-!
# Verification of the Gesture-Driven Field Engine

Shallow embedding of the `quiet-node/interactive-galaxy` Stellar Wave core:
the dot-grid field simulator (`StellarWaveRenderer.ts`), the controller
lifecycle and effect mapping (`StellarWaveController.ts`,
`LightBulbController`), and the gesture classifier contract.

Numbers are modelled as rationals (`ℚ`).  The JavaScript `Math.sqrt` is
modelled as an abstract function parameter `sqrt : ℚ → ℚ`: every theorem
proved below holds for every interpretation of `sqrt`, in particular for
the real square root rounded to the float grid.
-/

namespace StellarWave

/-- A 2-D vector in screen pixel coordinates. -/
structure Vec2 where
  x : ℚ
  y : ℚ
deriving Repr, DecidableEq

/-- One point of the mesh grid (`MeshPoint` in `types.ts`): current
position, immutable rest anchor, velocity, pinned flag and the decaying
ripple-intensity scalar. -/
structure MeshPoint where
  position : Vec2
  restPosition : Vec2
  velocity : Vec2
  pinned : Bool
  rippleIntensity : ℚ
deriving Repr, DecidableEq

/-- State of one ripple wave (`RippleState` in `types.ts`). -/
structure RippleState where
  center : Vec2
  startTime : ℚ
  active : Bool
deriving Repr, DecidableEq

/-- The configuration constants used by the simulator
(`StellarWaveConfig` in `types.ts`, only the physics-relevant fields). -/
structure Config where
  spacing : ℚ
  stiffness : ℚ
  damping : ℚ
  rippleSpeed : ℚ
  rippleWidth : ℚ
  rippleDuration : ℚ
  maxRipples : ℕ
  interactionRadius : ℚ
  repulsionStrength : ℚ
deriving Repr, DecidableEq

/-- Simulator state owned by `StellarWaveRenderer`. -/
structure RState where
  cfg : Config
  containerWidth : ℚ
  containerHeight : ℚ
  meshPoints : List MeshPoint
  ripples : List RippleState
  animationTime : ℚ
  interactionPoint : Option Vec2
deriving Repr, DecidableEq

/-- `createMesh` (StellarWaveRenderer.ts, lines 181-220): build a regular
lattice covering the viewport; points on the outer boundary row/column are
pinned; every point starts at its rest position with zero velocity. -/
def createMesh (cfg : Config) (width height : ℚ) : List MeshPoint :=
  let cols : ℕ := (width / cfg.spacing).floor.toNat + 3
  let rows : ℕ := (height / cfg.spacing).floor.toNat + 3
  let totalWidth : ℚ := ((cols : ℚ) - 1) * cfg.spacing
  let totalHeight : ℚ := ((rows : ℚ) - 1) * cfg.spacing
  let startX : ℚ := (width - totalWidth) / 2
  let startY : ℚ := (height - totalHeight) / 2
  ((List.range rows).map (fun row =>
    (List.range cols).map (fun col =>
      let x : ℚ := startX + (col : ℚ) * cfg.spacing
      let y : ℚ := startY + (row : ℚ) * cfg.spacing
      let isPinned : Bool :=
        decide (row = 0) || decide (row = rows - 1) ||
        decide (col = 0) || decide (col = cols - 1)
      { position := ⟨x, y⟩
        restPosition := ⟨x, y⟩
        velocity := ⟨0, 0⟩
        pinned := isPinned
        rippleIntensity := 0 }))).flatten

/-- Initial renderer state right after `initialize()`. -/
def initState (cfg : Config) (width height : ℚ) : RState :=
  { cfg := cfg
    containerWidth := width
    containerHeight := height
    meshPoints := createMesh cfg width height
    ripples := []
    animationTime := 0
    interactionPoint := none }

/-- Deactivate the first active ripple in the list — the effect of
`this.ripples.find((r) => r.active)` followed by `oldest.active = false`
in `triggerRipple`. -/
def deactivateFirstActive : List RippleState → List RippleState
  | [] => []
  | r :: rs =>
    if r.active then { r with active := false } :: rs
    else r :: deactivateFirstActive rs

/-- `triggerRipple(x, y)` (StellarWaveRenderer.ts, lines 275-295):
mirror the X axis, cap concurrent ripples by deactivating the oldest
active one, and append the new active ripple. -/
def triggerRipple (s : RState) (x y : ℚ) : RState :=
  let screenX : ℚ := (1 - x) * s.containerWidth
  let screenY : ℚ := y * s.containerHeight
  let ripples :=
    if s.cfg.maxRipples ≤ (s.ripples.filter (·.active)).length then
      deactivateFirstActive s.ripples
    else s.ripples
  { s with
    ripples := ripples ++ [{ center := ⟨screenX, screenY⟩
                             startTime := s.animationTime
                             active := true }] }

/-- `updateInteraction(x, y)` (StellarWaveRenderer.ts, lines 302-314):
set or clear the continuous interaction point, mirroring the X axis. -/
def updateInteraction (s : RState) (p : Option (ℚ × ℚ)) : RState :=
  match p with
  | none => { s with interactionPoint := none }
  | some (x, y) =>
      let ip : Vec2 := ⟨(1 - x) * s.containerWidth, y * s.containerHeight⟩
      { s with interactionPoint := some ip }

/-- The intensity-decay factor applied to every point each tick
(`point.rippleIntensity *= 0.92`). -/
def decayFactor : ℚ := 92 / 100

/-- The per-point intensity decay at the top of `updateRipples`. -/
def decayPoint (p : MeshPoint) : MeshPoint :=
  { p with rippleIntensity := p.rippleIntensity * decayFactor }

/-- Effect of one active, non-expired ripple on one mesh point
(StellarWaveRenderer.ts, lines 360-385).  `sqrt` abstracts
`Math.sqrt`. -/
def applyRippleToPoint (sqrt : ℚ → ℚ) (cfg : Config) (center : Vec2)
    (rippleAge : ℚ) (p : MeshPoint) : MeshPoint :=
  if p.pinned then p
  else
    let rippleRadius := rippleAge * cfg.rippleSpeed
    let dx := p.restPosition.x - center.x
    let dy := p.restPosition.y - center.y
    let distance := sqrt (dx * dx + dy * dy)
    let distFromRing := |distance - rippleRadius|
    if distFromRing < cfg.rippleWidth then
      let ringFade := 1 - distFromRing / cfg.rippleWidth
      let ageFade := 1 - rippleAge / cfg.rippleDuration
      let rippleStrength := ringFade * ageFade
      let p' := { p with
        rippleIntensity := max p.rippleIntensity (rippleStrength * (8 / 10)) }
      if 1 < distance then
        let pushStrength := rippleStrength * 6
        { p' with velocity :=
            ⟨p'.velocity.x + dx / distance * pushStrength,
             p'.velocity.y + dy / distance * pushStrength⟩ }
      else p'
    else p

/-- One iteration of the ripple loop: skip inactive ripples, deactivate
expired ones, otherwise push every point on the expanding ring. -/
def processRipple (sqrt : ℚ → ℚ) (cfg : Config) (time : ℚ)
    (pts : List MeshPoint) (r : RippleState) :
    RippleState × List MeshPoint :=
  if !r.active then (r, pts)
  else
    let rippleAge := time - r.startTime
    if cfg.rippleDuration ≤ rippleAge then ({ r with active := false }, pts)
    else (r, pts.map (applyRippleToPoint sqrt cfg r.center rippleAge))

/-- The ripple loop of `updateRipples`, processing ripples in list order
against the progressively updated points. -/
def runRipples (sqrt : ℚ → ℚ) (cfg : Config) (time : ℚ) :
    List RippleState → List MeshPoint → List RippleState × List MeshPoint
  | [], pts => ([], pts)
  | r :: rs, pts =>
    let (r', pts') := processRipple sqrt cfg time pts r
    let (rs', pts'') := runRipples sqrt cfg time rs pts'
    (r' :: rs', pts'')

/-- `updateRipples` (StellarWaveRenderer.ts, lines 336-393): decay every
intensity, process each active ripple, then prune long-inactive
ripples. -/
def updateRipples (sqrt : ℚ → ℚ) (s : RState) : RState :=
  let pts0 := s.meshPoints.map decayPoint
  let res := runRipples sqrt s.cfg s.animationTime s.ripples pts0
  let pts := res.2
  let ripples := res.1.filter
    (fun r => r.active || decide (s.animationTime - r.startTime
                                    < s.cfg.rippleDuration + 1 / 2))
  { s with meshPoints := pts, ripples := ripples }

/-- Spring-damper relaxation for one point (StellarWaveRenderer.ts,
lines 401-418): velocity gains the spring force, is damped, then the
position advances by the velocity.  Pinned points are skipped. -/
def springStep (cfg : Config) (p : MeshPoint) : MeshPoint :=
  if p.pinned then p
  else
    let dx := p.restPosition.x - p.position.x
    let dy := p.restPosition.y - p.position.y
    let vx := (p.velocity.x + dx * cfg.stiffness) * cfg.damping
    let vy := (p.velocity.y + dy * cfg.stiffness) * cfg.damping
    { p with
      velocity := ⟨vx, vy⟩
      position := ⟨p.position.x + vx, p.position.y + vy⟩ }

/-- Interaction repulsion for one point (StellarWaveRenderer.ts,
lines 424-444): points within `interactionRadius` of the interaction
center are pushed away, with the division by the distance guarded by
`distance > 0.01`. -/
def repulsionStep (sqrt : ℚ → ℚ) (cfg : Config) (ip : Vec2)
    (p : MeshPoint) : MeshPoint :=
  if p.pinned then p
  else
    let dx := p.position.x - ip.x
    let dy := p.position.y - ip.y
    let distance := sqrt (dx * dx + dy * dy)
    if distance < cfg.interactionRadius then
      let force := (1 - distance / cfg.interactionRadius) * cfg.repulsionStrength
      if 1 / 100 < distance then
        { p with
          velocity := ⟨p.velocity.x + dx / distance * force,
                       p.velocity.y + dy / distance * force⟩
          rippleIntensity := max p.rippleIntensity (force * (1 / 10)) }
      else p
    else p

/-- `updatePhysics` (StellarWaveRenderer.ts, lines 398-446): spring-damper
relaxation for every point, then the interaction repulsion pass when an
interaction point is set. -/
def updatePhysics (sqrt : ℚ → ℚ) (s : RState) : RState :=
  let pts := s.meshPoints.map (springStep s.cfg)
  let pts :=
    match s.interactionPoint with
    | none => pts
    | some ip => pts.map (repulsionStep sqrt s.cfg ip)
  { s with meshPoints := pts }

/-- `update(deltaTime)` (StellarWaveRenderer.ts, lines 320-331): advance
the clock, run the ripple pass, then the physics pass.  (`syncBuffers`
has no effect on the simulation state.) -/
def update (sqrt : ℚ → ℚ) (s : RState) (deltaTime : ℚ) : RState :=
  let s := { s with animationTime := s.animationTime + deltaTime }
  updatePhysics sqrt (updateRipples sqrt s)

/-- The simulator operations a caller can interleave. -/
inductive Op where
  | update (deltaTime : ℚ)
  | triggerRipple (x y : ℚ)
  | updateInteraction (p : Option (ℚ × ℚ))
deriving Repr, DecidableEq

/-- Apply one operation. -/
def applyOp (sqrt : ℚ → ℚ) (s : RState) : Op → RState
  | .update dt => update sqrt s dt
  | .triggerRipple x y => triggerRipple s x y
  | .updateInteraction p => updateInteraction s p

/-- Run a sequence of simulator operations. -/
def run (sqrt : ℚ → ℚ) (s : RState) (ops : List Op) : RState :=
  ops.foldl (applyOp sqrt) s

/-! ## Point-level preservation lemmas -/

/-- The ripple pass never changes a point's pinned flag. -/
theorem applyRippleToPoint_pinned_eq (sqrt : ℚ → ℚ) (cfg : Config)
    (c : Vec2) (a : ℚ) (p : MeshPoint) :
    (applyRippleToPoint sqrt cfg c a p).pinned = p.pinned := by
  unfold applyRippleToPoint
  dsimp only
  split_ifs <;> rfl

/-- A pinned point is left untouched by the ripple pass. -/
theorem applyRippleToPoint_of_pinned (sqrt : ℚ → ℚ) (cfg : Config)
    (c : Vec2) (a : ℚ) (p : MeshPoint) (h : p.pinned = true) :
    applyRippleToPoint sqrt cfg c a p = p := by
  unfold applyRippleToPoint
  simp [h]

/-- The ripple pass never moves a point and never changes its velocity
rest anchor; only intensity and velocity may change.  Here: position and
rest position are unchanged. -/
theorem applyRippleToPoint_position_eq (sqrt : ℚ → ℚ) (cfg : Config)
    (c : Vec2) (a : ℚ) (p : MeshPoint) :
    (applyRippleToPoint sqrt cfg c a p).position = p.position ∧
    (applyRippleToPoint sqrt cfg c a p).restPosition = p.restPosition := by
  unfold applyRippleToPoint
  dsimp only
  split_ifs <;> exact ⟨rfl, rfl⟩

/-- A pinned point is left untouched by the spring-damper step. -/
theorem springStep_of_pinned (cfg : Config) (p : MeshPoint)
    (h : p.pinned = true) : springStep cfg p = p := by
  unfold springStep
  simp [h]

/-- The spring-damper step never changes the pinned flag or rest anchor. -/
theorem springStep_pinned_eq (cfg : Config) (p : MeshPoint) :
    (springStep cfg p).pinned = p.pinned ∧
    (springStep cfg p).restPosition = p.restPosition := by
  unfold springStep
  dsimp only
  split_ifs <;> exact ⟨rfl, rfl⟩

/-- A pinned point is left untouched by the repulsion pass. -/
theorem repulsionStep_of_pinned (sqrt : ℚ → ℚ) (cfg : Config) (ip : Vec2)
    (p : MeshPoint) (h : p.pinned = true) :
    repulsionStep sqrt cfg ip p = p := by
  unfold repulsionStep
  simp [h]

/-- The repulsion pass never changes the pinned flag, position or rest
anchor. -/
theorem repulsionStep_pinned_eq (sqrt : ℚ → ℚ) (cfg : Config) (ip : Vec2)
    (p : MeshPoint) :
    (repulsionStep sqrt cfg ip p).pinned = p.pinned ∧
    (repulsionStep sqrt cfg ip p).position = p.position ∧
    (repulsionStep sqrt cfg ip p).restPosition = p.restPosition := by
  unfold repulsionStep
  dsimp only
  split_ifs <;> exact ⟨rfl, rfl, rfl⟩

/-- The pinned-point invariant: a pinned point sits at its rest anchor
with zero velocity. -/
def PinnedInv (p : MeshPoint) : Prop :=
  p.pinned = true → p.position = p.restPosition ∧ p.velocity = ⟨0, 0⟩

theorem pinnedInv_decay (p : MeshPoint) (h : PinnedInv p) :
    PinnedInv (decayPoint p) := by
  intro hp
  exact h hp

theorem pinnedInv_applyRipple (sqrt : ℚ → ℚ) (cfg : Config) (c : Vec2)
    (a : ℚ) (p : MeshPoint) (h : PinnedInv p) :
    PinnedInv (applyRippleToPoint sqrt cfg c a p) := by
  intro hp
  rw [applyRippleToPoint_pinned_eq] at hp
  rw [applyRippleToPoint_of_pinned sqrt cfg c a p hp]
  exact h hp

theorem pinnedInv_springStep (cfg : Config) (p : MeshPoint)
    (h : PinnedInv p) : PinnedInv (springStep cfg p) := by
  intro hp
  rw [(springStep_pinned_eq cfg p).1] at hp
  rw [springStep_of_pinned cfg p hp]
  exact h hp

theorem pinnedInv_repulsionStep (sqrt : ℚ → ℚ) (cfg : Config) (ip : Vec2)
    (p : MeshPoint) (h : PinnedInv p) :
    PinnedInv (repulsionStep sqrt cfg ip p) := by
  intro hp
  rw [(repulsionStep_pinned_eq sqrt cfg ip p).1] at hp
  rw [repulsionStep_of_pinned sqrt cfg ip p hp]
  exact h hp

/-- Shape of one ripple-loop iteration on the points list. -/
theorem processRipple_points (sqrt : ℚ → ℚ) (cfg : Config) (t : ℚ)
    (pts : List MeshPoint) (r : RippleState) :
    (processRipple sqrt cfg t pts r).2 = pts ∨
    (processRipple sqrt cfg t pts r).2 =
      pts.map (applyRippleToPoint sqrt cfg r.center (t - r.startTime)) := by
  unfold processRipple
  dsimp only
  split_ifs <;> simp

/-- The ripple loop preserves any pointwise property preserved by the
single-ripple pass. -/
theorem runRipples_points_forall (sqrt : ℚ → ℚ) (cfg : Config) (t : ℚ)
    (P : MeshPoint → Prop)
    (H : ∀ c a p, P p → P (applyRippleToPoint sqrt cfg c a p)) :
    ∀ (rs : List RippleState) (pts : List MeshPoint),
      (∀ p ∈ pts, P p) →
      ∀ p ∈ (runRipples sqrt cfg t rs pts).2, P p := by
  intro rs
  induction rs with
  | nil => intro pts h p hp; simpa [runRipples] using h p (by simpa [runRipples] using hp)
  | cons r rs ih =>
    intro pts h p hp
    simp only [runRipples] at hp
    apply ih (processRipple sqrt cfg t pts r).2 _ p hp
    rcases processRipple_points sqrt cfg t pts r with heq | heq
    · rw [heq]; exact h
    · rw [heq]
      intro q hq
      rcases List.mem_map.mp hq with ⟨q', hq', rfl⟩
      exact H _ _ _ (h q' hq')

/-- Every simulator operation preserves the pinned-point invariant. -/
theorem pinnedInv_applyOp (sqrt : ℚ → ℚ) (s : RState) (op : Op)
    (h : ∀ p ∈ s.meshPoints, PinnedInv p) :
    ∀ p ∈ (applyOp sqrt s op).meshPoints, PinnedInv p := by
  cases op with
  | triggerRipple x y => simpa [applyOp, triggerRipple] using h
  | updateInteraction p =>
      cases p with
      | none => simpa [applyOp, updateInteraction] using h
      | some xy => simpa [applyOp, updateInteraction] using h
  | update dt =>
      intro p hp
      simp only [applyOp, update, updatePhysics, updateRipples] at hp
      set s1 : RState := { s with animationTime := s.animationTime + dt } with hs1
      have hmesh1 : s1.meshPoints = s.meshPoints := rfl
      -- after the ripple pass
      have hrip : ∀ q ∈ (runRipples sqrt s1.cfg s1.animationTime s1.ripples
          (s1.meshPoints.map decayPoint)).2, PinnedInv q := by
        apply runRipples_points_forall sqrt s1.cfg s1.animationTime PinnedInv
          (fun c a q hq => pinnedInv_applyRipple sqrt s1.cfg c a q hq)
        intro q hq
        rcases List.mem_map.mp hq with ⟨q', hq', rfl⟩
        exact pinnedInv_decay q' (h q' (by rw [← hmesh1]; exact hq'))
      -- after the physics pass
      rcases hs' : s.interactionPoint with _ | ip
      · simp only [hs'] at hp
        rcases List.mem_map.mp hp with ⟨q, hq, rfl⟩
        exact pinnedInv_springStep _ q (hrip q hq)
      · simp only [hs'] at hp
        rcases List.mem_map.mp hp with ⟨q, hq, rfl⟩
        rcases List.mem_map.mp hq with ⟨q', hq', rfl⟩
        exact pinnedInv_repulsionStep sqrt _ _ _
          (pinnedInv_springStep _ q' (hrip q' hq'))

/-- Every point of the freshly built grid (pinned or not) starts at its
rest position with zero velocity. -/
theorem createMesh_at_rest (cfg : Config) (w h : ℚ) :
    ∀ p ∈ createMesh cfg w h,
      p.position = p.restPosition ∧ p.velocity = ⟨0, 0⟩ := by
  intro p hp
  simp only [createMesh, List.mem_flatten, List.mem_map] at hp
  rcases hp with ⟨l, ⟨row, _, rfl⟩, hl⟩
  rcases List.mem_map.mp hl with ⟨col, _, rfl⟩
  exact ⟨rfl, rfl⟩

end StellarWave

namespace StellarWave

/-- The pinned-point invariant is preserved by any operation sequence. -/
theorem pinnedInv_run (sqrt : ℚ → ℚ) (ops : List Op) :
    ∀ s : RState, (∀ p ∈ s.meshPoints, PinnedInv p) →
      ∀ p ∈ (run sqrt s ops).meshPoints, PinnedInv p := by
  induction ops with
  | nil => intro s h; simpa [run] using h
  | cons op ops ih =>
    intro s h
    have : run sqrt s (op :: ops) = run sqrt (applyOp sqrt s op) ops := rfl
    rw [this]
    exact ih _ (pinnedInv_applyOp sqrt s op h)

/-- C1: every pinned mesh point keeps its position bit-identical to its
rest position (and zero velocity) across every sequence of simulator
operations — `update`/`step` calls, `triggerRipple` calls and continuous
interaction updates with any parameters — for every interpretation of
`Math.sqrt` and every viewport size. -/
theorem C1_pinned_points_fixed (sqrt : ℚ → ℚ) (cfg : Config) (w h : ℚ)
    (ops : List Op) :
    ∀ p ∈ (run sqrt (initState cfg w h) ops).meshPoints,
      p.pinned = true → p.position = p.restPosition ∧ p.velocity = ⟨0, 0⟩ := by
  have hinit : ∀ p ∈ (initState cfg w h).meshPoints, PinnedInv p := by
    intro p hp _
    exact createMesh_at_rest cfg w h p hp
  exact pinnedInv_run sqrt ops (initState cfg w h) hinit

/-- The spring-damper relaxation sequence exactly as the specification
words it: velocity is incremented by stiffness times (restPosition minus
position), then multiplied by the damping factor, then the position is
incremented by the resulting velocity. -/
def springDamperSpec (cfg : Config) (p : MeshPoint) : MeshPoint :=
  let v1x := p.velocity.x + cfg.stiffness * (p.restPosition.x - p.position.x)
  let v1y := p.velocity.y + cfg.stiffness * (p.restPosition.y - p.position.y)
  let v2x := v1x * cfg.damping
  let v2y := v1y * cfg.damping
  { p with
    velocity := ⟨v2x, v2y⟩
    position := ⟨p.position.x + v2x, p.position.y + v2y⟩ }

/-- The code's spring step coincides with the specification's relaxation
sequence on unpinned points and skips pinned points. -/
theorem springStep_eq_spec (cfg : Config) (p : MeshPoint) :
    springStep cfg p =
      if p.pinned = true then p else springDamperSpec cfg p := by
  unfold springStep springDamperSpec
  dsimp only
  split_ifs with h <;> simp [h]
  cases p with
  | mk pos rest vel pin ri =>
    cases pos; cases rest; cases vel
    simp [MeshPoint.mk.injEq, Vec2.mk.injEq]
    constructor
    · constructor <;> ring
    · constructor <;> ring

/-- C2: one physics update with no continuous interaction applies, to
every unpinned point, exactly the spring-damper relaxation sequence
(velocity += stiffness × (rest − pos); velocity *= damping;
position += velocity), and skips pinned points entirely. -/
theorem C2_spring_damper_relaxation (sqrt : ℚ → ℚ) (s : RState)
    (h : s.interactionPoint = none) :
    (updatePhysics sqrt s).meshPoints =
      s.meshPoints.map
        (fun p => if p.pinned = true then p else springDamperSpec s.cfg p) := by
  unfold updatePhysics
  rw [h]
  dsimp only
  exact List.map_congr_left (fun p _ => springStep_eq_spec s.cfg p)

/-- Configuration used by concrete witnesses (the shipped
`DEFAULT_STELLAR_WAVE_CONFIG` values). -/
def witnessCfg : Config :=
  { spacing := 35
    stiffness := 8 / 100
    damping := 92 / 100
    rippleSpeed := 350
    rippleWidth := 150
    rippleDuration := 4
    maxRipples := 5
    interactionRadius := 150
    repulsionStrength := 5 }

/-- A displaced unpinned point used by concrete witnesses. -/
def witnessPoint : MeshPoint :=
  { position := ⟨3, 4⟩
    restPosition := ⟨1, 2⟩
    velocity := ⟨1 / 2, 0⟩
    pinned := false
    rippleIntensity := 1 / 4 }

/-- A small concrete simulator state used by concrete witnesses. -/
def witnessState : RState :=
  { cfg := witnessCfg
    containerWidth := 100
    containerHeight := 50
    meshPoints := [witnessPoint]
    ripples := []
    animationTime := 0
    interactionPoint := none }

/-- Witness for C2 at a concrete state with no interaction point. -/
theorem C2_spring_damper_relaxation_witness :
    witnessState.interactionPoint = none ∧
    (updatePhysics (fun q => q) witnessState).meshPoints =
      witnessState.meshPoints.map
        (fun p => if p.pinned = true then p
                  else springDamperSpec witnessState.cfg p) :=
  ⟨rfl, C2_spring_damper_relaxation (fun q => q) witnessState rfl⟩

end StellarWave

namespace StellarWave

/-- C9: both `triggerRipple` and `updateInteraction` store the screen
center `((1 − x) · containerWidth, y · containerHeight)`: the X axis is
mirrored to match the flipped video, the Y axis is mapped directly. -/
theorem C9_mirrored_screen_coordinates (s : RState) (x y : ℚ) :
    (triggerRipple s x y).ripples.getLast? =
      some { center := ⟨(1 - x) * s.containerWidth, y * s.containerHeight⟩
             startTime := s.animationTime
             active := true } ∧
    (updateInteraction s (some (x, y))).interactionPoint =
      some ⟨(1 - x) * s.containerWidth, y * s.containerHeight⟩ := by
  constructor
  · simp [triggerRipple]
  · rfl

/-- C10: a coordinate offset is divided by its computed Euclidean length
only under the code's strictly positive guards: whenever the ripple pass
changes a point's velocity the divisor exceeds 1, and whenever the
interaction repulsion changes a point's velocity the divisor exceeds
0.01 — in both cases the divisor is nonzero, so no division by zero is
performed. -/
theorem C10_division_guards (sqrt : ℚ → ℚ) (cfg : Config) (c ip : Vec2)
    (a : ℚ) (p : MeshPoint) :
    ((applyRippleToPoint sqrt cfg c a p).velocity ≠ p.velocity →
      1 < sqrt ((p.restPosition.x - c.x) * (p.restPosition.x - c.x) +
                (p.restPosition.y - c.y) * (p.restPosition.y - c.y)) ∧
      sqrt ((p.restPosition.x - c.x) * (p.restPosition.x - c.x) +
            (p.restPosition.y - c.y) * (p.restPosition.y - c.y)) ≠ 0) ∧
    ((repulsionStep sqrt cfg ip p).velocity ≠ p.velocity →
      1 / 100 < sqrt ((p.position.x - ip.x) * (p.position.x - ip.x) +
                      (p.position.y - ip.y) * (p.position.y - ip.y)) ∧
      sqrt ((p.position.x - ip.x) * (p.position.x - ip.x) +
            (p.position.y - ip.y) * (p.position.y - ip.y)) ≠ 0) := by
  constructor
  · intro hv
    unfold applyRippleToPoint at hv
    dsimp only at hv
    split_ifs at hv with h1 h2 h3
    · exact absurd rfl hv
    · exact ⟨h3, ne_of_gt (lt_trans zero_lt_one h3)⟩
    · exact absurd rfl hv
    · exact absurd rfl hv
  · intro hv
    unfold repulsionStep at hv
    dsimp only at hv
    split_ifs at hv with h1 h2 h3
    · exact absurd rfl hv
    · exact ⟨h3, ne_of_gt (lt_trans (by norm_num) h3)⟩
    · exact absurd rfl hv
    · exact absurd rfl hv

/-- Witness for C10: a concrete unpinned point whose velocity is changed
by both passes, with the computed length strictly above both guards. -/
theorem C10_division_guards_witness :
    ((applyRippleToPoint (fun _ => 4) witnessCfg ⟨0, 0⟩ 0
        witnessPoint).velocity ≠ witnessPoint.velocity) ∧
    ((repulsionStep (fun _ => 4) witnessCfg ⟨0, 0⟩
        witnessPoint).velocity ≠ witnessPoint.velocity) ∧
    ((1 : ℚ) < 4 ∧ (4 : ℚ) ≠ 0) ∧
    ((1 : ℚ) / 100 < 4 ∧ (4 : ℚ) ≠ 0) := by
  refine ⟨?_, ?_, ?_, ?_⟩
  · norm_num [applyRippleToPoint, witnessCfg, witnessPoint]
  · norm_num [repulsionStep, witnessCfg, witnessPoint]
  · exact (C10_division_guards (fun _ => 4) witnessCfg ⟨0, 0⟩ ⟨0, 0⟩ 0
      witnessPoint).1 (by norm_num [applyRippleToPoint, witnessCfg, witnessPoint])
  · exact (C10_division_guards (fun _ => 4) witnessCfg ⟨0, 0⟩ ⟨0, 0⟩ 0
      witnessPoint).2 (by norm_num [repulsionStep, witnessCfg, witnessPoint])

end StellarWave

namespace StellarWave

/-- The distance the code computes from a ripple center to a point's rest
position (`Math.sqrt(dx*dx + dy*dy)` on rest coordinates). -/
def ringDistance (sqrt : ℚ → ℚ) (c rest : Vec2) : ℚ :=
  sqrt ((rest.x - c.x) * (rest.x - c.x) + (rest.y - c.y) * (rest.y - c.y))

/-- `Math.abs(distance - rippleRadius)` with the ring radius
`rippleAge * rippleSpeed`. -/
def distFromRing (sqrt : ℚ → ℚ) (cfg : Config) (c : Vec2) (age : ℚ)
    (rest : Vec2) : ℚ :=
  |ringDistance sqrt c rest - age * cfg.rippleSpeed|

/-- The intensity contribution a ripple offers an in-band point:
`ringFade * ageFade * 0.8` (code line 377). -/
def rippleContribution (sqrt : ℚ → ℚ) (cfg : Config) (c : Vec2) (age : ℚ)
    (rest : Vec2) : ℚ :=
  (1 - distFromRing sqrt cfg c age rest / cfg.rippleWidth) *
    (1 - age / cfg.rippleDuration) * (8 / 10)

/-- The effect of one ripple-loop iteration on one point: active,
non-expired ripples apply the ring push, others leave the point alone. -/
def rippleStepPoint (sqrt : ℚ → ℚ) (cfg : Config) (t : ℚ) (r : RippleState)
    (p : MeshPoint) : MeshPoint :=
  if r.active = true ∧ t - r.startTime < cfg.rippleDuration then
    applyRippleToPoint sqrt cfg r.center (t - r.startTime) p
  else p

/-- The composite effect of the whole ripple loop on one point. -/
def rippleEffect (sqrt : ℚ → ℚ) (cfg : Config) (t : ℚ) :
    List RippleState → MeshPoint → MeshPoint
  | [], p => p
  | r :: rs, p => rippleEffect sqrt cfg t rs (rippleStepPoint sqrt cfg t r p)

theorem rippleStepPoint_of_inactive (sqrt : ℚ → ℚ) (cfg : Config) (t : ℚ)
    (r : RippleState) (p : MeshPoint) (h : r.active = false) :
    rippleStepPoint sqrt cfg t r p = p := by
  unfold rippleStepPoint
  simp [h]

theorem rippleStepPoint_of_expired (sqrt : ℚ → ℚ) (cfg : Config) (t : ℚ)
    (r : RippleState) (p : MeshPoint)
    (h : cfg.rippleDuration ≤ t - r.startTime) :
    rippleStepPoint sqrt cfg t r p = p := by
  unfold rippleStepPoint
  simp [not_lt.mpr h]

theorem rippleStepPoint_of_live (sqrt : ℚ → ℚ) (cfg : Config) (t : ℚ)
    (r : RippleState) (p : MeshPoint) (h1 : r.active = true)
    (h2 : t - r.startTime < cfg.rippleDuration) :
    rippleStepPoint sqrt cfg t r p =
      applyRippleToPoint sqrt cfg r.center (t - r.startTime) p := by
  unfold rippleStepPoint
  simp [h1, h2]

/-- The sequential ripple loop equals a single map of the composite
per-point effect. -/
theorem runRipples_snd_eq_map (sqrt : ℚ → ℚ) (cfg : Config) (t : ℚ) :
    ∀ (rs : List RippleState) (pts : List MeshPoint),
      (runRipples sqrt cfg t rs pts).2 =
        pts.map (rippleEffect sqrt cfg t rs) := by
  intro rs
  induction rs with
  | nil =>
    intro pts
    show pts = pts.map (rippleEffect sqrt cfg t [])
    have : rippleEffect sqrt cfg t [] = fun p => p := rfl
    rw [this, List.map_id']
  | cons r rs ih =>
    intro pts
    show (runRipples sqrt cfg t rs (processRipple sqrt cfg t pts r).2).2 = _
    rw [ih]
    have hre : ∀ p, rippleEffect sqrt cfg t (r :: rs) p =
        rippleEffect sqrt cfg t rs (rippleStepPoint sqrt cfg t r p) :=
      fun p => rfl
    unfold processRipple
    dsimp only
    split_ifs with h1 h2
    · refine List.map_congr_left (fun p _ => ?_)
      rw [hre, rippleStepPoint_of_inactive sqrt cfg t r p
        (Bool.not_eq_true' .. |>.mp h1)]
    · refine List.map_congr_left (fun p _ => ?_)
      rw [hre, rippleStepPoint_of_expired sqrt cfg t r p h2]
    · rw [List.map_map]
      refine List.map_congr_left (fun p _ => ?_)
      show rippleEffect sqrt cfg t rs
        (applyRippleToPoint sqrt cfg r.center (t - r.startTime) p) = _
      rw [hre, rippleStepPoint_of_live sqrt cfg t r p
        (by revert h1; cases r.active <;> simp) (lt_of_not_ge h2)]

/-- The mesh after `updateRipples` is the original mesh, decayed and then
run through the composite ripple effect. -/
theorem updateRipples_meshPoints (sqrt : ℚ → ℚ) (s : RState) :
    (updateRipples sqrt s).meshPoints =
      s.meshPoints.map
        (fun p => rippleEffect sqrt s.cfg s.animationTime s.ripples
          (decayPoint p)) := by
  show (runRipples sqrt s.cfg s.animationTime s.ripples
      (s.meshPoints.map decayPoint)).2 = _
  rw [runRipples_snd_eq_map, List.map_map]
  rfl

/-- The ripple pass never lowers a point's intensity. -/
theorem applyRippleToPoint_intensity_mono (sqrt : ℚ → ℚ) (cfg : Config)
    (c : Vec2) (a : ℚ) (p : MeshPoint) :
    p.rippleIntensity ≤ (applyRippleToPoint sqrt cfg c a p).rippleIntensity := by
  unfold applyRippleToPoint
  dsimp only
  split_ifs <;> simp [le_max_left]

theorem rippleStepPoint_intensity_mono (sqrt : ℚ → ℚ) (cfg : Config)
    (t : ℚ) (r : RippleState) (p : MeshPoint) :
    p.rippleIntensity ≤ (rippleStepPoint sqrt cfg t r p).rippleIntensity := by
  unfold rippleStepPoint
  split_ifs
  · exact applyRippleToPoint_intensity_mono sqrt cfg r.center (t - r.startTime) p
  · exact le_refl _

theorem rippleEffect_intensity_mono (sqrt : ℚ → ℚ) (cfg : Config) (t : ℚ) :
    ∀ (rs : List RippleState) (p : MeshPoint),
      p.rippleIntensity ≤ (rippleEffect sqrt cfg t rs p).rippleIntensity := by
  intro rs
  induction rs with
  | nil => intro p; exact le_refl _
  | cons r rs ih =>
    intro p
    exact le_trans (rippleStepPoint_intensity_mono sqrt cfg t r p)
      (ih (rippleStepPoint sqrt cfg t r p))

theorem rippleStepPoint_rest_pinned_eq (sqrt : ℚ → ℚ) (cfg : Config)
    (t : ℚ) (r : RippleState) (p : MeshPoint) :
    (rippleStepPoint sqrt cfg t r p).restPosition = p.restPosition ∧
    (rippleStepPoint sqrt cfg t r p).pinned = p.pinned := by
  unfold rippleStepPoint
  split_ifs
  · exact ⟨(applyRippleToPoint_position_eq sqrt cfg r.center
      (t - r.startTime) p).2,
      applyRippleToPoint_pinned_eq sqrt cfg r.center (t - r.startTime) p⟩
  · exact ⟨rfl, rfl⟩

/-- An in-band, unpinned point gets at least the ripple's contribution. -/
theorem applyRippleToPoint_contrib (sqrt : ℚ → ℚ) (cfg : Config)
    (c : Vec2) (a : ℚ) (p : MeshPoint) (h1 : p.pinned = false)
    (h2 : distFromRing sqrt cfg c a p.restPosition < cfg.rippleWidth) :
    rippleContribution sqrt cfg c a p.restPosition ≤
      (applyRippleToPoint sqrt cfg c a p).rippleIntensity := by
  unfold distFromRing ringDistance at h2
  unfold rippleContribution distFromRing ringDistance
  unfold applyRippleToPoint
  dsimp only
  rw [h1]
  simp only [Bool.false_eq_true, if_false, if_pos h2]
  split_ifs
  · exact le_max_right _ _
  · exact le_max_right _ _

/-- Every active, non-expired, in-band ripple of the list contributes a
lower bound to the final intensity of an unpinned point. -/
theorem rippleEffect_contrib (sqrt : ℚ → ℚ) (cfg : Config) (t : ℚ) :
    ∀ (rs : List RippleState) (r : RippleState) (p : MeshPoint),
      r ∈ rs → r.active = true → t - r.startTime < cfg.rippleDuration →
      p.pinned = false →
      distFromRing sqrt cfg r.center (t - r.startTime) p.restPosition
        < cfg.rippleWidth →
      rippleContribution sqrt cfg r.center (t - r.startTime) p.restPosition ≤
        (rippleEffect sqrt cfg t rs p).rippleIntensity := by
  intro rs
  induction rs with
  | nil => intro r p hmem; exact absurd hmem (List.not_mem_nil r)
  | cons r' rs ih =>
    intro r p hmem hact hage hpin hband
    rcases List.mem_cons.mp hmem with heq | htail
    · subst heq
      have hstep := rippleStepPoint_of_live sqrt cfg t r p hact hage
      show rippleContribution sqrt cfg r.center (t - r.startTime)
          p.restPosition ≤
        (rippleEffect sqrt cfg t rs (rippleStepPoint sqrt cfg t r p)).rippleIntensity
      rw [hstep]
      exact le_trans
        (applyRippleToPoint_contrib sqrt cfg r.center (t - r.startTime) p
          hpin hband)
        (rippleEffect_intensity_mono sqrt cfg t rs _)
    · have hrp := rippleStepPoint_rest_pinned_eq sqrt cfg t r' p
      have := ih r (rippleStepPoint sqrt cfg t r' p) htail hact hage
        (by rw [hrp.2]; exact hpin) (by rw [hrp.1]; exact hband)
      rw [hrp.1] at this
      exact this

/-- C3: on every tick each point's `rippleIntensity` is first multiplied
by the fixed factor 0.92 (< 1); the ripple pass only raises intensities
above that decayed value (max-hold, contributions never decrease it);
and for every active, non-expired ripple, every unpinned point within
`rippleWidth` of the current ring ends the tick with intensity at least
`ringFade × ageFade × 0.8`. -/
theorem C3_intensity_decay_and_max_hold (sqrt : ℚ → ℚ) (s : RState) :
    decayFactor < 1 ∧
    (updateRipples sqrt s).meshPoints =
      s.meshPoints.map
        (fun p => rippleEffect sqrt s.cfg s.animationTime s.ripples
          (decayPoint p)) ∧
    (∀ p ∈ s.meshPoints,
      p.rippleIntensity * decayFactor ≤
        (rippleEffect sqrt s.cfg s.animationTime s.ripples
          (decayPoint p)).rippleIntensity) ∧
    (∀ p ∈ s.meshPoints, ∀ r ∈ s.ripples, r.active = true →
      s.animationTime - r.startTime < s.cfg.rippleDuration →
      p.pinned = false →
      distFromRing sqrt s.cfg r.center (s.animationTime - r.startTime)
        p.restPosition < s.cfg.rippleWidth →
      rippleContribution sqrt s.cfg r.center
          (s.animationTime - r.startTime) p.restPosition ≤
        (rippleEffect sqrt s.cfg s.animationTime s.ripples
          (decayPoint p)).rippleIntensity) := by
  refine ⟨by norm_num [decayFactor], updateRipples_meshPoints sqrt s, ?_, ?_⟩
  · intro p _
    exact rippleEffect_intensity_mono sqrt s.cfg s.animationTime s.ripples
      (decayPoint p)
  · intro p _ r hr hact hage hpin hband
    exact rippleEffect_contrib sqrt s.cfg s.animationTime s.ripples r
      (decayPoint p) hr hact hage hpin hband

end StellarWave

namespace StellarWave

/-- A concrete active ripple used by witnesses. -/
def witnessRipple : RippleState := { center := ⟨0, 0⟩, startTime := 0, active := true }

/-- The witness state carrying one active ripple. -/
def witnessRippleState : RState := { witnessState with ripples := [witnessRipple] }

/-- Witness for C3: the concrete unpinned point lies in the ring band of
the concrete active ripple, and its intensity after the tick is at least
the ripple's contribution. -/
theorem C3_intensity_decay_and_max_hold_witness :
    witnessPoint ∈ witnessRippleState.meshPoints ∧
    witnessRipple ∈ witnessRippleState.ripples ∧
    witnessRipple.active = true ∧
    witnessRippleState.animationTime - witnessRipple.startTime <
      witnessRippleState.cfg.rippleDuration ∧
    witnessPoint.pinned = false ∧
    distFromRing (fun _ => 4) witnessRippleState.cfg witnessRipple.center
      (witnessRippleState.animationTime - witnessRipple.startTime)
      witnessPoint.restPosition < witnessRippleState.cfg.rippleWidth ∧
    rippleContribution (fun _ => 4) witnessRippleState.cfg
      witnessRipple.center
      (witnessRippleState.animationTime - witnessRipple.startTime)
      witnessPoint.restPosition ≤
      (rippleEffect (fun _ => 4) witnessRippleState.cfg
        witnessRippleState.animationTime witnessRippleState.ripples
        (decayPoint witnessPoint)).rippleIntensity := by
  have hm1 : witnessPoint ∈ witnessRippleState.meshPoints := by
    simp [witnessRippleState, witnessState]
  have hm2 : witnessRipple ∈ witnessRippleState.ripples := by
    simp [witnessRippleState, witnessState]
  have hage : witnessRippleState.animationTime - witnessRipple.startTime <
      witnessRippleState.cfg.rippleDuration := by
    norm_num [witnessRippleState, witnessState, witnessRipple, witnessCfg]
  have hband : distFromRing (fun _ => 4) witnessRippleState.cfg
      witnessRipple.center
      (witnessRippleState.animationTime - witnessRipple.startTime)
      witnessPoint.restPosition < witnessRippleState.cfg.rippleWidth := by
    norm_num [distFromRing, ringDistance, witnessRippleState, witnessState,
      witnessRipple, witnessCfg, witnessPoint]
  exact ⟨hm1, hm2, rfl, hage, rfl, hband,
    (C3_intensity_decay_and_max_hold (fun _ => 4) witnessRippleState).2.2.2
      witnessPoint hm1 witnessRipple hm2 rfl hage rfl hband⟩

/-! ## C4: ripple cap and oldest-first eviction -/

/-- The number of active ripples (`this.ripples.filter((r) => r.active)`). -/
def activeCount (l : List RippleState) : ℕ := (l.filter (·.active)).length

theorem activeCount_append (l₁ l₂ : List RippleState) :
    activeCount (l₁ ++ l₂) = activeCount l₁ + activeCount l₂ := by
  simp [activeCount, List.filter_append]

/-- `deactivateFirstActive` flips exactly the first active ripple:
the list splits as inactive prefix, first active element, tail. -/
theorem deactivateFirstActive_eq (l : List RippleState) (r' : RippleState)
    (h : l.find? (·.active) = some r') :
    ∃ l₁ l₂, l = l₁ ++ r' :: l₂ ∧ (∀ q ∈ l₁, q.active = false) ∧
      deactivateFirstActive l = l₁ ++ { r' with active := false } :: l₂ := by
  induction l with
  | nil => simp at h
  | cons a l ih =>
    by_cases ha : a.active = true
    · rw [List.find?_cons_of_pos _ ha] at h
      obtain rfl : a = r' := by injection h
      refine ⟨[], l, rfl, by simp, ?_⟩
      show (if a.active then { a with active := false } :: l else _) = _
      rw [if_pos ha]
      rfl
    · rw [List.find?_cons_of_neg _ (by simpa using ha)] at h
      obtain ⟨l₁, l₂, hl, hinact, hd⟩ := ih h
      refine ⟨a :: l₁, l₂, by rw [hl]; rfl, ?_, ?_⟩
      · intro q hq
        rcases List.mem_cons.mp hq with rfl | hq'
        · simpa using ha
        · exact hinact q hq'
      · show (if a.active then { a with active := false } :: l else
            a :: deactivateFirstActive l) = _
        rw [if_neg (by simpa using ha), hd]
        rfl

/-- When some ripple is active, `find?` produces the first one. -/
theorem find?_active_of_pos (l : List RippleState)
    (h : 0 < activeCount l) :
    ∃ r', l.find? (·.active) = some r' := by
  have : ∃ q ∈ l, (q.active : Bool) = true := by
    rcases hq : l.filter (·.active) with _ | ⟨q, qs⟩
    · rw [activeCount, hq] at h; simp at h
    · have : q ∈ l.filter (·.active) := by rw [hq]; exact List.mem_cons_self q qs
      exact ⟨q, (List.mem_filter.mp this).1, (List.mem_filter.mp this).2⟩
    
  obtain ⟨q, hql, hqa⟩ := this
  have := List.find?_isSome.mpr ⟨q, hql, hqa⟩
  exact Option.isSome_iff_exists.mp this

/-- Deactivating the first active ripple lowers the active count by one. -/
theorem activeCount_deactivateFirstActive (l : List RippleState)
    (r' : RippleState) (h : l.find? (·.active) = some r') :
    activeCount (deactivateFirstActive l) = activeCount l - 1 := by
  obtain ⟨l₁, l₂, hl, hinact, hd⟩ := deactivateFirstActive_eq l r' h
  have hr' : r'.active = true := by
    have := List.find?_some h
    simpa using this
  have h₁ : activeCount l₁ = 0 := by
    rw [activeCount, List.length_eq_zero, List.filter_eq_nil_iff]
    intro q hq
    simp [hinact q hq]
  rw [hd, hl, activeCount_append, activeCount_append, h₁]
  simp [activeCount, List.filter_cons, hr']

/-- Under the chronological list order, the first active ripple is the
oldest active ripple. -/
theorem find?_active_oldest (l : List RippleState) (r' : RippleState)
    (hsorted : l.Pairwise (fun a b => a.startTime ≤ b.startTime))
    (h : l.find? (·.active) = some r') :
    ∀ q ∈ l, q.active = true → r'.startTime ≤ q.startTime := by
  obtain ⟨l₁, l₂, hl, hinact, _⟩ := deactivateFirstActive_eq l r' h
  subst hl
  intro q hq hqa
  rcases List.mem_append.mp hq with hq1 | hq2
  · exact absurd hqa (by simp [hinact q hq1])
  · rcases List.mem_cons.mp hq2 with rfl | hq3
    · exact le_refl _
    · have := (List.pairwise_append.mp hsorted).2.1
      exact (List.pairwise_cons.mp this).1 q hq3

end StellarWave

namespace StellarWave

/-- C4: triggering a ripple keeps the active-ripple count at or below
`maxRipples`; when the cap is already reached the count stays exactly at
the cap and the ripple deactivated first is the oldest active one (the
first active entry of the chronologically ordered list), before the new
active ripple is appended. -/
theorem C4_ripple_cap_oldest_eviction (s : RState) (x y : ℚ)
    (hsorted : s.ripples.Pairwise (fun a b => a.startTime ≤ b.startTime))
    (hm : 1 ≤ s.cfg.maxRipples)
    (hc : activeCount s.ripples ≤ s.cfg.maxRipples) :
    activeCount (triggerRipple s x y).ripples ≤ s.cfg.maxRipples ∧
    (activeCount s.ripples = s.cfg.maxRipples →
      activeCount (triggerRipple s x y).ripples = s.cfg.maxRipples ∧
      ∃ oldest, s.ripples.find? (·.active) = some oldest ∧
        oldest.active = true ∧
        (∀ q ∈ s.ripples, q.active = true →
          oldest.startTime ≤ q.startTime) ∧
        ∃ l₁ l₂, s.ripples = l₁ ++ oldest :: l₂ ∧
          (∀ q ∈ l₁, q.active = false) ∧
          (triggerRipple s x y).ripples =
            (l₁ ++ { oldest with active := false } :: l₂) ++
              [{ center := ⟨(1 - x) * s.containerWidth,
                            y * s.containerHeight⟩
                 startTime := s.animationTime
                 active := true }]) := by
  have htrig : (triggerRipple s x y).ripples =
      (if s.cfg.maxRipples ≤ activeCount s.ripples then
        deactivateFirstActive s.ripples else s.ripples) ++
        [{ center := ⟨(1 - x) * s.containerWidth, y * s.containerHeight⟩
           startTime := s.animationTime
           active := true }] := rfl
  by_cases hfull : s.cfg.maxRipples ≤ activeCount s.ripples
  · have hceq : activeCount s.ripples = s.cfg.maxRipples :=
      le_antisymm hc hfull
    have hpos : 0 < activeCount s.ripples := by
      rw [hceq]; exact lt_of_lt_of_le Nat.zero_lt_one hm
    obtain ⟨oldest, hfind⟩ := find?_active_of_pos _ hpos
    obtain ⟨l₁, l₂, hl, hinact, hd⟩ := deactivateFirstActive_eq _ _ hfind
    have hcount : activeCount (triggerRipple s x y).ripples =
        s.cfg.maxRipples := by
      rw [htrig, if_pos hfull, activeCount_append,
        activeCount_deactivateFirstActive _ _ hfind, hceq]
      have hone : activeCount
          [({ center := ⟨(1 - x) * s.containerWidth, y * s.containerHeight⟩
              startTime := s.animationTime
              active := true } : RippleState)] = 1 := rfl
      rw [hone]
      exact Nat.sub_add_cancel hm
    refine ⟨le_of_eq hcount,
      fun _ => ⟨hcount, oldest, hfind, ?_, ?_, l₁, l₂, hl, hinact, ?_⟩⟩
    · simpa using List.find?_some hfind
    · exact find?_active_oldest s.ripples oldest hsorted hfind
    · rw [htrig, if_pos hfull, hd]
  · have hlt : activeCount s.ripples < s.cfg.maxRipples :=
      lt_of_not_ge hfull
    have hcount : activeCount (triggerRipple s x y).ripples =
        activeCount s.ripples + 1 := by
      rw [htrig, if_neg hfull, activeCount_append]
      rfl
    exact ⟨by rw [hcount]; exact Nat.succ_le_of_lt hlt,
      fun hEq => absurd (le_of_eq hEq.symm) hfull⟩

/-- Two active witness ripples in chronological order. -/
def witnessRippleA : RippleState := { center := ⟨5, 5⟩, startTime := 0, active := true }

/-- Second witness ripple, younger than the first. -/
def witnessRippleB : RippleState := { center := ⟨6, 6⟩, startTime := 1, active := true }

/-- A state whose ripple list already sits at the cap (`maxRipples = 2`). -/
def witnessFullState : RState :=
  { cfg := { witnessCfg with maxRipples := 2 }
    containerWidth := 100
    containerHeight := 50
    meshPoints := []
    ripples := [witnessRippleA, witnessRippleB]
    animationTime := 2
    interactionPoint := none }

/-- Witness for C4: at the cap of 2 active ripples, triggering a third
keeps the active count exactly at 2. -/
theorem C4_ripple_cap_oldest_eviction_witness :
    witnessFullState.ripples.Pairwise
      (fun a b => a.startTime ≤ b.startTime) ∧
    1 ≤ witnessFullState.cfg.maxRipples ∧
    activeCount witnessFullState.ripples ≤
      witnessFullState.cfg.maxRipples ∧
    activeCount witnessFullState.ripples = witnessFullState.cfg.maxRipples ∧
    activeCount (triggerRipple witnessFullState (1 / 2) (1 / 2)).ripples =
      witnessFullState.cfg.maxRipples := by
  have hsorted : witnessFullState.ripples.Pairwise
      (fun a b => a.startTime ≤ b.startTime) := by
    simp [witnessFullState, witnessRippleA, witnessRippleB,
      List.pairwise_cons]
  have hm : 1 ≤ witnessFullState.cfg.maxRipples := by
    simp [witnessFullState]
  have hc : activeCount witnessFullState.ripples ≤
      witnessFullState.cfg.maxRipples := by
    simp [activeCount, witnessFullState, witnessRippleA, witnessRippleB]
  have hEq : activeCount witnessFullState.ripples =
      witnessFullState.cfg.maxRipples := by
    simp [activeCount, witnessFullState, witnessRippleA, witnessRippleB]
  exact ⟨hsorted, hm, hc, hEq,
    ((C4_ripple_cap_oldest_eviction witnessFullState (1 / 2) (1 / 2)
      hsorted hm hc).2 hEq).1⟩

end StellarWave

namespace Gesture

/-- Lifecycle phase a per-gesture state machine can rest in between
ticks (`STARTED`/`ENDED` are one-tick transition events). -/
inductive Phase where
  | idle
  | engaged
deriving Repr, DecidableEq

/-- The discrete events a machine can emit on a tick. -/
inductive EventKind where
  | started
  | active
  | ended
deriving Repr, DecidableEq

/-- Per-gesture thresholds (`GestureConfig` in the shared gesture type
declarations): engage/release hysteresis pair, minimum sustained frames,
cooldown. -/
structure ClassifierConfig where
  engageThreshold : ℚ
  releaseThreshold : ℚ
  minSustainedFrames : ℕ
  cooldownMs : ℚ
deriving Repr, DecidableEq

/-- State carried across ticks by one `(handedness, gestureType)`
machine. -/
structure Machine where
  phase : Phase
  sustained : ℕ
  lastEndedAt : Option ℚ
deriving Repr, DecidableEq

/-- Modelled from the spec: the per-tick transition of one gesture state
machine of the GestureClassifier (the `GestureDetector` implementation is
not among the sources; only its type declarations and callers are).
Spec §4.1 steps 2-5: the raw feature is compared against the engage
threshold; a candidate must hold `minSustainedFrames` consecutive ticks
before `idle → started` (a cooldown since the last ENDED must also have
elapsed); while engaged the machine emits ACTIVE until the feature
crosses the release threshold, which emits ENDED exactly once. -/
def stepMachine (cfg : ClassifierConfig) (m : Machine) (feature : ℚ)
    (now : ℚ) : Machine × Option EventKind :=
  match m.phase with
  | .idle =>
    if feature < cfg.engageThreshold then
      let sustained := m.sustained + 1
      let cooldownOver : Bool :=
        match m.lastEndedAt with
        | none => true
        | some t0 => decide (cfg.cooldownMs ≤ now - t0)
      if cfg.minSustainedFrames ≤ sustained ∧ cooldownOver = true then
        ({ phase := .engaged, sustained := sustained
           lastEndedAt := m.lastEndedAt }, some .started)
      else ({ m with sustained := sustained }, none)
    else ({ m with sustained := 0 }, none)
  | .engaged =>
    if cfg.releaseThreshold < feature then
      ({ phase := .idle, sustained := 0, lastEndedAt := some now },
        some .ended)
    else (m, some .active)

/-- Run a machine over a list of `(feature, timestamp)` ticks, collecting
the emitted events. -/
def runMachine (cfg : ClassifierConfig) :
    Machine → List (ℚ × ℚ) → Machine × List EventKind
  | m, [] => (m, [])
  | m, (f, t) :: rest =>
    let step := stepMachine cfg m f t
    let res := runMachine cfg step.1 rest
    (res.1, step.2.toList ++ res.2)

/-- The fresh machine: idle, no sustained frames, no previous ENDED. -/
def initMachine : Machine := { phase := .idle, sustained := 0, lastEndedAt := none }

theorem runMachine_append (cfg : ClassifierConfig) :
    ∀ (l₁ l₂ : List (ℚ × ℚ)) (m : Machine),
      runMachine cfg m (l₁ ++ l₂) =
        ((runMachine cfg (runMachine cfg m l₁).1 l₂).1,
         (runMachine cfg m l₁).2 ++ (runMachine cfg (runMachine cfg m l₁).1 l₂).2) := by
  intro l₁
  induction l₁ with
  | nil => intro l₂ m; simp [runMachine]
  | cons ft rest ih =>
    intro l₂ m
    obtain ⟨f, t⟩ := ft
    show runMachine cfg m ((f, t) :: (rest ++ l₂)) = _
    simp only [runMachine]
    rw [ih l₂ (stepMachine cfg m f t).1]
    simp [List.append_assoc]


/-- A candidate tick below the promotion threshold only increments the
sustained-frame counter. -/
theorem stepMachine_candidate (cfg : ClassifierConfig) (f t : ℚ)
    (sus : ℕ) (last : Option ℚ) (hf : f < cfg.engageThreshold)
    (hlt : sus + 1 < cfg.minSustainedFrames) :
    stepMachine cfg ⟨.idle, sus, last⟩ f t =
      (⟨.idle, sus + 1, last⟩, none) := by
  unfold stepMachine
  simp only
  rw [if_pos hf, if_neg]
  intro hcon
  omega

/-- A non-candidate tick resets the sustained-frame counter and emits
nothing from idle. -/
theorem stepMachine_reset (cfg : ClassifierConfig) (f t : ℚ)
    (sus : ℕ) (last : Option ℚ) (hf : ¬ f < cfg.engageThreshold) :
    stepMachine cfg ⟨.idle, sus, last⟩ f t = (⟨.idle, 0, last⟩, none) := by
  unfold stepMachine
  simp only
  rw [if_neg hf]

/-- Over candidate frames, an idle machine stays idle, only counts
frames, and emits nothing, as long as the count stays below
`minSustainedFrames`. -/
theorem runMachine_candidate (cfg : ClassifierConfig) :
    ∀ (frames : List (ℚ × ℚ)) (m : Machine),
      m.phase = .idle →
      (∀ ft ∈ frames, ft.1 < cfg.engageThreshold) →
      m.sustained + frames.length < cfg.minSustainedFrames →
      (runMachine cfg m frames).1.phase = .idle ∧
      (runMachine cfg m frames).1.sustained = m.sustained + frames.length ∧
      (runMachine cfg m frames).2 = [] := by
  intro frames
  induction frames with
  | nil => intro m h1 _ _; exact ⟨h1, rfl, rfl⟩
  | cons ft rest ih =>
    intro m h1 h2 h3
    obtain ⟨f, t⟩ := ft
    obtain ⟨ph, sus, last⟩ := m
    cases ph with
    | engaged => simp at h1
    | idle =>
      simp only [List.length_cons] at h3
      have hf : f < cfg.engageThreshold := h2 (f, t) (List.mem_cons_self _ _)
      have hstep := stepMachine_candidate cfg f t sus last hf (by omega)
      have hrest := ih ⟨.idle, sus + 1, last⟩ rfl
        (fun q hq => h2 q (List.mem_cons_of_mem _ hq)) (by simp; omega)
      have hrun : runMachine cfg ⟨.idle, sus, last⟩ ((f, t) :: rest) =
          ((runMachine cfg ⟨.idle, sus + 1, last⟩ rest).1,
           (runMachine cfg ⟨.idle, sus + 1, last⟩ rest).2) := by
        simp only [runMachine]
        rw [hstep]
        rfl
      rw [hrun]
      refine ⟨hrest.1, ?_, hrest.2.2⟩
      rw [hrest.2.1]
      simp
      omega

/-- Over non-candidate (released) frames, an idle machine stays idle and
emits nothing. -/
theorem runMachine_released (cfg : ClassifierConfig) :
    ∀ (frames : List (ℚ × ℚ)) (m : Machine),
      m.phase = .idle →
      (∀ ft ∈ frames, ¬ ft.1 < cfg.engageThreshold) →
      (runMachine cfg m frames).1.phase = .idle ∧
      (runMachine cfg m frames).2 = [] := by
  intro frames
  induction frames with
  | nil => intro m h1 _; exact ⟨h1, rfl⟩
  | cons ft rest ih =>
    intro m h1 h2
    obtain ⟨f, t⟩ := ft
    obtain ⟨ph, sus, last⟩ := m
    cases ph with
    | engaged => simp at h1
    | idle =>
      have hf : ¬ f < cfg.engageThreshold := h2 (f, t) (List.mem_cons_self _ _)
      have hstep := stepMachine_reset cfg f t sus last hf
      have hrest := ih ⟨.idle, 0, last⟩ rfl
        (fun q hq => h2 q (List.mem_cons_of_mem _ hq))
      have hrun : runMachine cfg ⟨.idle, sus, last⟩ ((f, t) :: rest) =
          ((runMachine cfg ⟨.idle, 0, last⟩ rest).1,
           (runMachine cfg ⟨.idle, 0, last⟩ rest).2) := by
        simp only [runMachine]
        rw [hstep]
        rfl
      rw [hrun]
      exact ⟨hrest.1, hrest.2⟩

/-- C5: a candidate detection held for fewer than `minSustainedFrames`
consecutive ticks and then released never produces a STARTED event —
for every gesture configuration (pinch, fist or hold-style), a single
noisy frame cannot promote idle to started. -/
theorem C5_sustained_frames_guard (cfg : ClassifierConfig)
    (held released : List (ℚ × ℚ))
    (hk : held.length < cfg.minSustainedFrames)
    (hheld : ∀ ft ∈ held, ft.1 < cfg.engageThreshold)
    (hrel : ∀ ft ∈ released, cfg.engageThreshold ≤ ft.1) :
    EventKind.started ∉ (runMachine cfg initMachine (held ++ released)).2 := by
  have hc := runMachine_candidate cfg held initMachine rfl hheld
    (by simpa [initMachine] using hk)
  have hr := runMachine_released cfg released
    (runMachine cfg initMachine held).1 hc.1
    (fun ft hft => not_lt.mpr (hrel ft hft))
  rw [runMachine_append, hc.2.2, hr.2]
  simp

/-- A fist-style configuration used by the C5 witness (engage below 1,
release at 1.4, five sustained frames, the default pinch cooldown). -/
def witnessGestureCfg : ClassifierConfig :=
  { engageThreshold := 1
    releaseThreshold := 7 / 5
    minSustainedFrames := 5
    cooldownMs := 800 }

/-- Three candidate frames — fewer than the five required. -/
def witnessGestureHeld : List (ℚ × ℚ) := [(0, 0), (0, 1), (0, 2)]

/-- One released frame. -/
def witnessGestureReleased : List (ℚ × ℚ) := [(2, 3)]

/-- Witness for C5: three candidate ticks then a release emit no STARTED. -/
theorem C5_sustained_frames_guard_witness :
    witnessGestureHeld.length < witnessGestureCfg.minSustainedFrames ∧
    (∀ ft ∈ witnessGestureHeld, ft.1 < witnessGestureCfg.engageThreshold) ∧
    (∀ ft ∈ witnessGestureReleased,
      witnessGestureCfg.engageThreshold ≤ ft.1) ∧
    EventKind.started ∉ (runMachine witnessGestureCfg initMachine
      (witnessGestureHeld ++ witnessGestureReleased)).2 := by
  have h1 : witnessGestureHeld.length <
      witnessGestureCfg.minSustainedFrames := by
    simp [witnessGestureHeld, witnessGestureCfg]
  have h2 : ∀ ft ∈ witnessGestureHeld,
      ft.1 < witnessGestureCfg.engageThreshold := by
    intro ft hft
    simp only [witnessGestureHeld, List.mem_cons, List.not_mem_nil,
      or_false] at hft
    rcases hft with rfl | rfl | rfl <;>
      norm_num [witnessGestureCfg]
  have h3 : ∀ ft ∈ witnessGestureReleased,
      witnessGestureCfg.engageThreshold ≤ ft.1 := by
    intro ft hft
    simp only [witnessGestureReleased, List.mem_cons, List.not_mem_nil,
      or_false] at hft
    rcases hft with rfl <;> norm_num [witnessGestureCfg]
  exact ⟨h1, h2, h3,
    C5_sustained_frames_guard witnessGestureCfg witnessGestureHeld
      witnessGestureReleased h1 h2 h3⟩

end Gesture

namespace Controller

/-- Handedness labels as the controllers normalize them. -/
inductive Handed where
  | left
  | right
  | unknown
deriving Repr, DecidableEq

/-- The gesture types the StellarWave controller dispatches on. -/
inductive GType where
  | pinch
  | middlePinch
  | fist
deriving Repr, DecidableEq

/-- Lifecycle state carried by an emitted gesture event. -/
inductive GLifecycle where
  | started
  | active
  | ended
deriving Repr, DecidableEq

/-- One gesture event of a tick (`GestureEvent`). -/
structure GEvent where
  gtype : GType
  gstate : GLifecycle
  handed : Handed
  pos : ℚ × ℚ
deriving Repr, DecidableEq

/-- The three continuous force-field slots the controller drives
(Repulsion force field, gravity well, vortex). -/
structure Slots where
  forceField : Option (ℚ × ℚ)
  gravityWell : Option (ℚ × ℚ)
  vortex : Option (ℚ × ℚ)
deriving Repr, DecidableEq

/-- Events in the STARTED or ACTIVE lifecycle state. -/
def startedOrActive (e : GEvent) : Bool :=
  decide (e.gstate = GLifecycle.started) ||
  decide (e.gstate = GLifecycle.active)

/-- Condition under which the controller sets the Repulsion force field
(left-hand pinch, STARTED or ACTIVE — StellarWaveController.ts
lines 280-288). -/
def qualForceField (e : GEvent) : Bool :=
  decide (e.gtype = GType.pinch) && decide (e.handed = Handed.left) &&
    startedOrActive e

/-- Condition for the gravity well (right-hand fist, lines 328-332). -/
def qualGravityWell (e : GEvent) : Bool :=
  decide (e.gtype = GType.fist) && decide (e.handed = Handed.right) &&
    startedOrActive e

/-- Condition for the vortex (left-hand fist, lines 333-338). -/
def qualVortex (e : GEvent) : Bool :=
  decide (e.gtype = GType.fist) && decide (e.handed = Handed.left) &&
    startedOrActive e

/-- Slot effect of one gesture event in the controller's event loop. -/
def applyEvent (slots : Slots) (e : GEvent) : Slots :=
  let s1 := if qualForceField e then { slots with forceField := some e.pos }
            else slots
  let s2 := if qualGravityWell e then { s1 with gravityWell := some e.pos }
            else s1
  if qualVortex e then { s2 with vortex := some e.pos } else s2

/-- `processHandTracking` restricted to its force-field slot effects
(StellarWaveController.ts, lines 237-247 and 260-359): when no hands are
detected all three slots are cleared at once; otherwise the event loop
sets slots for qualifying events and the state-sync step clears every
slot whose gesture was not active this tick. -/
def processHandTracking (slots : Slots) (frame : Option (List GEvent)) :
    Slots :=
  match frame with
  | none => { forceField := none, gravityWell := none, vortex := none }
  | some events =>
    let s1 := events.foldl applyEvent slots
    let s2 := if events.any qualForceField then s1
              else { s1 with forceField := none }
    let s3 := if events.any qualGravityWell then s2
              else { s2 with gravityWell := none }
    if events.any qualVortex then s3 else { s3 with vortex := none }

/-- A per-hand, per-gesture detector machine (engaged = started/active). -/
structure DMachine where
  handed : Handed
  gtype : GType
  engaged : Bool
deriving Repr, DecidableEq

/-- Modelled from the spec: the GestureClassifier's hand-loss rule — the
`GestureDetector` implementation is not among the sources.  Spec §4.1
step 7: "If a hand disappears entirely between ticks, force every active
state machine for that hand to ENDED immediately (do not wait for
threshold crossing)."  Machines whose hand is absent and that are
engaged are forced back to idle while emitting an ENDED event. -/
def forceEndAbsent (present : List Handed) :
    List DMachine → List DMachine × List GEvent
  | [] => ([], [])
  | m :: ms =>
    let res := forceEndAbsent present ms
    if decide (m.handed ∈ present) then (m :: res.1, res.2)
    else if m.engaged then
      ({ m with engaged := false } :: res.1,
        { gtype := m.gtype, gstate := .ended, handed := m.handed
          pos := (0, 0) } :: res.2)
    else (m :: res.1, res.2)

/-- C6: hand loss never leaves an interaction stuck on. With no hands at
all, one controller tick clears all three force-field slots; with a
partial frame, any slot whose qualifying gesture event is missing from
the tick is cleared; and (per the spec-modelled classifier) every
started/active machine of an absent hand is forced to ENDED within the
tick — it ends not engaged and an ENDED event is emitted for it. -/
theorem C6_hand_loss_clears_interactions (slots : Slots)
    (events : List GEvent) (present : List Handed)
    (machines : List DMachine) :
    processHandTracking slots none =
      { forceField := none, gravityWell := none, vortex := none } ∧
    (events.any qualForceField = false →
      (processHandTracking slots (some events)).forceField = none) ∧
    (events.any qualGravityWell = false →
      (processHandTracking slots (some events)).gravityWell = none) ∧
    (events.any qualVortex = false →
      (processHandTracking slots (some events)).vortex = none) ∧
    (∀ m ∈ (forceEndAbsent present machines).1,
      m.handed ∉ present → m.engaged = false) ∧
    (∀ m ∈ machines, m.handed ∉ present → m.engaged = true →
      ({ gtype := m.gtype, gstate := GLifecycle.ended, handed := m.handed
         pos := (0, 0) } : GEvent) ∈ (forceEndAbsent present machines).2) := by
  refine ⟨rfl, ?_, ?_, ?_, ?_, ?_⟩
  · intro h
    show (let s1 := events.foldl applyEvent slots
          let s2 := if events.any qualForceField then s1
                    else { s1 with forceField := none }
          let s3 := if events.any qualGravityWell then s2
                    else { s2 with gravityWell := none }
          if events.any qualVortex then s3
          else { s3 with vortex := none }).forceField = none
    dsimp only
    rw [h]
    simp only [Bool.false_eq_true, if_false]
    split_ifs <;> rfl
  · intro h
    show (let s1 := events.foldl applyEvent slots
          let s2 := if events.any qualForceField then s1
                    else { s1 with forceField := none }
          let s3 := if events.any qualGravityWell then s2
                    else { s2 with gravityWell := none }
          if events.any qualVortex then s3
          else { s3 with vortex := none }).gravityWell = none
    dsimp only
    rw [h]
    simp only [Bool.false_eq_true, if_false]
    split_ifs <;> rfl
  · intro h
    show (let s1 := events.foldl applyEvent slots
          let s2 := if events.any qualForceField then s1
                    else { s1 with forceField := none }
          let s3 := if events.any qualGravityWell then s2
                    else { s2 with gravityWell := none }
          if events.any qualVortex then s3
          else { s3 with vortex := none }).vortex = none
    dsimp only
    rw [h]
    simp only [Bool.false_eq_true, if_false]
  · induction machines with
    | nil => intro m hm; exact absurd hm (List.not_mem_nil m)
    | cons a ms ih =>
      intro m hm habs
      show m.engaged = false
      by_cases hpres : a.handed ∈ present
      · have : forceEndAbsent present (a :: ms) =
            (a :: (forceEndAbsent present ms).1,
             (forceEndAbsent present ms).2) := by
          simp only [forceEndAbsent]
          rw [if_pos (by simpa using hpres)]
        rw [this] at hm
        rcases List.mem_cons.mp hm with rfl | hm'
        · exact absurd hpres habs
        · exact ih m hm' habs
      · by_cases heng : a.engaged = true
        · have : forceEndAbsent present (a :: ms) =
              ({ a with engaged := false } :: (forceEndAbsent present ms).1,
               { gtype := a.gtype, gstate := .ended, handed := a.handed
                 pos := (0, 0) } :: (forceEndAbsent present ms).2) := by
            simp only [forceEndAbsent]
            rw [if_neg (by simpa using hpres), if_pos heng]
          rw [this] at hm
          rcases List.mem_cons.mp hm with rfl | hm'
          · rfl
          · exact ih m hm' habs
        · have : forceEndAbsent present (a :: ms) =
              (a :: (forceEndAbsent present ms).1,
               (forceEndAbsent present ms).2) := by
            simp only [forceEndAbsent]
            rw [if_neg (by simpa using hpres), if_neg heng]
          rw [this] at hm
          rcases List.mem_cons.mp hm with rfl | hm'
          · simpa using heng
          · exact ih m hm' habs
  · induction machines with
    | nil => intro m hm; exact absurd hm (List.not_mem_nil m)
    | cons a ms ih =>
      intro m hm habs heng
      rcases List.mem_cons.mp hm with rfl | hm'
      · have : forceEndAbsent present (m :: ms) =
            ({ m with engaged := false } :: (forceEndAbsent present ms).1,
             { gtype := m.gtype, gstate := .ended, handed := m.handed
               pos := (0, 0) } :: (forceEndAbsent present ms).2) := by
          simp only [forceEndAbsent]
          rw [if_neg (by simpa using habs), if_pos heng]
        rw [this]
        exact List.mem_cons_self _ _
      · have hmem := ih m hm' habs heng
        show _ ∈ (forceEndAbsent present (a :: ms)).2
        simp only [forceEndAbsent]
        split_ifs
        · exact hmem
        · exact List.mem_cons_of_mem _ hmem
        · exact hmem

/-- All three slots occupied, for the C6 witness. -/
def witnessSlots : Slots :=
  { forceField := some (1 / 2, 1 / 2)
    gravityWell := some (1 / 4, 1 / 4)
    vortex := some (3 / 4, 3 / 4) }

/-- An engaged left-pinch machine, for the C6 witness. -/
def witnessMachine : DMachine :=
  { handed := Handed.left, gtype := GType.pinch, engaged := true }

/-- Witness for C6: a no-hands tick clears the occupied slots, an empty
event list clears the force field, and a machine whose hand is gone is
forced to emit ENDED. -/
theorem C6_hand_loss_clears_interactions_witness :
    processHandTracking witnessSlots none =
      { forceField := none, gravityWell := none, vortex := none } ∧
    (processHandTracking witnessSlots (some [])).forceField = none ∧
    ({ gtype := witnessMachine.gtype, gstate := GLifecycle.ended
       handed := witnessMachine.handed, pos := (0, 0) } : GEvent) ∈
      (forceEndAbsent [Handed.right] [witnessMachine]).2 := by
  have hc := C6_hand_loss_clears_interactions witnessSlots []
    [Handed.right] [witnessMachine]
  refine ⟨hc.1, hc.2.1 rfl, ?_⟩
  exact hc.2.2.2.2.2 witnessMachine (List.mem_cons_self _ _)
    (by decide) rfl

end Controller

namespace Quasar

/-- Modelled from the spec: the renderer's quasar-surge charge store —
`startQuasarSurgeCharge` / `triggerQuasarSurgeBurst` are called by the
controller but their implementation is not among the sources.  Charging
stores the current intensity; the burst is "sized by final
`chargeIntensity`", so it returns the last stored value. -/
structure QuasarRenderer where
  stored : ℚ
deriving Repr, DecidableEq

/-- Store the tick's charge intensity (spec-modelled, see above). -/
def startQuasarSurgeCharge (r : QuasarRenderer) (i : ℚ) : QuasarRenderer :=
  { r with stored := i }

/-- Return the final captured intensity for the burst (spec-modelled). -/
def triggerQuasarSurgeBurst (r : QuasarRenderer) : ℚ := r.stored

/-- The controller's charge-intensity formula
(StellarWaveController.ts, line 305):
`Math.min(1, holdDuration / maxChargeTime)`. -/
def chargeIntensity (maxChargeTime holdDuration : ℚ) : ℚ :=
  min 1 (holdDuration / maxChargeTime)

/-- Modelled from the spec: `holdDuration += deltaTime` accumulates each
tick the hold gesture stays started/active (spec §4.1 step 6; the
accumulation lives in the missing GestureDetector).  Returns the running
hold durations per tick. -/
def holdDurations : List ℚ → ℚ → List ℚ
  | [], _ => []
  | d :: ds, acc => (acc + d) :: holdDurations ds (acc + d)

/-- One charging tick per delta: accumulate the hold, compute the charge
intensity, report it, and store it in the renderer
(StellarWaveController.ts, lines 299-309). -/
def chargeTicks (maxT : ℚ) :
    List ℚ → ℚ → QuasarRenderer → QuasarRenderer × List ℚ
  | [], _, r => (r, [])
  | d :: ds, hold, r =>
    let hold2 := hold + d
    let ci := chargeIntensity maxT hold2
    let res := chargeTicks maxT ds hold2 (startQuasarSurgeCharge r ci)
    (res.1, ci :: res.2)

/-- A zero hold charges to intensity zero. -/
theorem chargeIntensity_zero (maxT : ℚ) : chargeIntensity maxT 0 = 0 := by
  unfold chargeIntensity
  rw [zero_div]
  exact min_eq_right zero_le_one

/-- Every tick reports exactly `min(1, holdDuration / maxChargeTime)` of
the running hold duration. -/
theorem chargeTicks_reported (maxT : ℚ) :
    ∀ (ds : List ℚ) (hold : ℚ) (r : QuasarRenderer),
      (chargeTicks maxT ds hold r).2 =
        (holdDurations ds hold).map (chargeIntensity maxT) := by
  intro ds
  induction ds with
  | nil => intro hold r; rfl
  | cons d ds ih =>
    intro hold r
    show (chargeIntensity maxT (hold + d)) :: _ = _
    rw [ih]
    rfl

/-- After charging through `ds`, the stored intensity corresponds to the
total accumulated hold. -/
theorem chargeTicks_stored (maxT : ℚ) :
    ∀ (ds : List ℚ) (hold : ℚ),
      (chargeTicks maxT ds hold ⟨chargeIntensity maxT hold⟩).1 =
        ⟨chargeIntensity maxT (hold + ds.sum)⟩ := by
  intro ds
  induction ds with
  | nil => intro hold; rw [List.sum_nil, add_zero]; rfl
  | cons d ds ih =>
    intro hold
    show (chargeTicks maxT ds (hold + d)
        (startQuasarSurgeCharge ⟨chargeIntensity maxT hold⟩
          (chargeIntensity maxT (hold + d)))).1 = _
    have : startQuasarSurgeCharge ⟨chargeIntensity maxT hold⟩
        (chargeIntensity maxT (hold + d)) =
        ⟨chargeIntensity maxT (hold + d)⟩ := rfl
    rw [this, ih (hold + d), List.sum_cons]
    rw [add_assoc]

/-- C7: starting from a fresh charge (intensity 0), every tick of a hold
gesture in started/active reports `min(1, holdDuration / maxChargeTime)`
with `holdDuration` the accumulated delta times, and the burst fired on
ENDED (also on forced interruption) is sized by the final captured
intensity `min(1, totalHold / maxChargeTime)`. -/
theorem C7_hold_charge_intensity (maxT : ℚ) (ds : List ℚ) :
    (chargeTicks maxT ds 0 ⟨0⟩).2 =
      (holdDurations ds 0).map (chargeIntensity maxT) ∧
    triggerQuasarSurgeBurst (chargeTicks maxT ds 0 ⟨0⟩).1 =
      chargeIntensity maxT ds.sum := by
  constructor
  · exact chargeTicks_reported maxT ds 0 ⟨0⟩
  · have h0 : (⟨0⟩ : QuasarRenderer) = ⟨chargeIntensity maxT 0⟩ := by
      rw [chargeIntensity_zero]
    rw [h0, chargeTicks_stored maxT ds 0, zero_add]
    rfl

end Quasar

namespace Lifecycle

/-- Controller lifecycle states (`StellarWaveState` /
`LightBulbState`). -/
inductive CState where
  | uninitialized
  | ready
  | running
  | paused
  | disposed
deriving Repr, DecidableEq

/-- `StellarWaveController.start` (StellarWaveController.ts,
lines 131-150): throws after disposal; warns and returns when already
running; silently calls `initialize()` first when uninitialized; always
ends up RUNNING otherwise. -/
def stellarStart : CState → Except String CState
  | .disposed => .error "Cannot start after disposal"
  | .running => .ok .running
  | .uninitialized => .ok .running
  | .ready => .ok .running
  | .paused => .ok .running

/-- `LightBulbController.start` (part_004, lines 560-580): throws after
disposal; warns and returns when already running; logs a console error
and returns without starting (no exception) when uninitialized. -/
def lightBulbStart : CState → Except String CState
  | .disposed => .error "Cannot start after disposal"
  | .running => .ok .running
  | .uninitialized => .ok .uninitialized
  | .ready => .ok .running
  | .paused => .ok .running

/-- Whether a start call surfaced an error to the caller. -/
def isError : Except String CState → Bool
  | .error _ => true
  | .ok _ => false

/-- C8 counterexample: calling start() before initialization does NOT
raise an error to the caller — StellarWaveController silently
auto-initializes and runs, and LightBulbController returns without an
exception. -/
theorem C8_start_before_init_not_error :
    stellarStart CState.uninitialized = Except.ok CState.running ∧
    isError (stellarStart CState.uninitialized) = false ∧
    isError (lightBulbStart CState.uninitialized) = false :=
  ⟨rfl, rfl, rfl⟩

/-- C8 amended: start() after dispose() raises an explicit error in both
controllers, and disposal is the only state in which start() surfaces an
error; start() before initialization is not an error — the StellarWave
controller silently initializes and runs, the LightBulb controller logs
and stays unstarted. -/
theorem C8_amended_start_errors :
    (∀ st, isError (stellarStart st) = true ↔ st = CState.disposed) ∧
    (∀ st, isError (lightBulbStart st) = true ↔ st = CState.disposed) ∧
    stellarStart CState.uninitialized = Except.ok CState.running ∧
    lightBulbStart CState.uninitialized = Except.ok CState.uninitialized := by
  refine ⟨fun st => ?_, fun st => ?_, rfl, rfl⟩
  · cases st <;> simp [stellarStart, isError]
  · cases st <;> simp [lightBulbStart, isError]

end Lifecycle

namespace StellarWave

/-- A coarse grid configuration for the C1 witness (spacing wider than
the 3×3 viewport, so the grid is exactly 3 × 3 points). -/
def witnessGridCfg : Config := { witnessCfg with spacing := 7 }

/-- The initial renderer state over the tiny viewport. -/
def witnessGridState : RState := initState witnessGridCfg 3 3

/-- The top-left boundary point of the tiny grid. -/
def witnessPinnedPoint : MeshPoint :=
  { position := ⟨-11 / 2, -11 / 2⟩
    restPosition := ⟨-11 / 2, -11 / 2⟩
    velocity := ⟨0, 0⟩
    pinned := true
    rippleIntensity := 0 }

/-- Witness for C1: after one update step on the tiny grid, the concrete
pinned corner point is still in the mesh at its rest position with zero
velocity. -/
theorem C1_pinned_points_fixed_witness :
    witnessPinnedPoint ∈
      (run (fun q => q) (initState witnessGridCfg 3 3)
        [Op.update 1]).meshPoints ∧
    witnessPinnedPoint.pinned = true ∧
    witnessPinnedPoint.position = witnessPinnedPoint.restPosition ∧
    witnessPinnedPoint.velocity = ⟨0, 0⟩ := by
  have hfloor : ((3 : ℚ) / 7).floor = 0 := by
    show ⌊(3 / 7 : ℚ)⌋ = 0
    norm_num
  have hmem : witnessPinnedPoint ∈
      (run (fun q => q) (initState witnessGridCfg 3 3)
        [Op.update 1]).meshPoints := by
    norm_num [run, applyOp, update, updateRipples, runRipples,
      updatePhysics, initState, createMesh, witnessGridCfg, witnessCfg,
      decayPoint, decayFactor, springStep, List.range_succ, hfloor,
      witnessPinnedPoint]
  have hc := C1_pinned_points_fixed (fun q => q) witnessGridCfg 3 3
    [Op.update 1] witnessPinnedPoint hmem rfl
  exact ⟨hmem, rfl, hc.1, hc.2⟩

end StellarWave
